import Mathlib

/-!
# flyctl: WireGuard peer lifecycle commands and `config save`

A shallow embedding of `internal/command/wireguard/wireguard.go` and
`internal/command/config/save.go`.

Every command is a sequential Go function that talks to external collaborators
(the platform API, the local agent, viper, the terminal).  A command is embedded
as a function from the collaborators' answers (`World`, `SaveWorld`) and the
configuration state to an `Out`: the final configuration state, the list of
collaborator calls in program order (`Event`), and the Go return value.
-/

namespace Flyctl

/-! ## Go values -/

/-- Go `context.Context` values, as far as cancellation is concerned. -/
inductive Context where
  /-- Go `context.Background()`: never cancelled. -/
  | background : Context
  /-- A cancellable context made from `parent` (`context.WithCancel` and friends). -/
  | withCancel (parent : Context) (id : Nat) : Context
  /-- A context that only adds a value to `parent` (`context.WithValue`, `config.NewContext`). -/
  | withValue (parent : Context) (key : String) : Context
  deriving DecidableEq, Repr

/-- Whether `c` is `root` or was made from it: cancelling `root` then cancels `c`. -/
def Context.derivesFrom (root : Context) : Context → Bool
  | .background => decide (root = .background)
  | .withCancel p i => decide (root = .withCancel p i) || Context.derivesFrom root p
  | .withValue p k => decide (root = .withValue p k) || Context.derivesFrom root p

/-- Go `error` values. `agentNotRunning` is the sentinel `agent.ErrAgentNotRunning`,
`selectionAborted` is the error of a peer selection that found no peer to offer (spec §7). -/
inductive Error where
  | agentNotRunning : Error
  | selectionAborted : Error
  | other (msg : String) : Error
  /-- Go `errors.Wrap(err, msg)` and `fmt.Errorf("msg: %w", err)`. -/
  | wrap (msg : String) (cause : Error) : Error
  deriving DecidableEq, Repr

/-- The part of `api.Organization` the commands use. -/
structure Organization where
  slug : String
  deriving DecidableEq, Repr

/-- The part of `api.WireGuardPeer` the commands use. -/
structure Peer where
  name : String
  region : String
  peerip : String
  deriving DecidableEq, Repr

/-- The fields of `api.WireGuardPeerStatus` read by `runWireguardStatus`. -/
structure PeerStatus where
  live : Bool
  wgError : String
  endpoint : String
  lastHandshake : String
  sinceHandshake : String
  added : String
  sinceAdded : String
  rx : Int
  tx : Int
  deriving DecidableEq, Repr

/-- The value returned by `wireguard.Create`: the peer and its only private key. -/
structure WireGuardState where
  peer : Peer
  localPrivate : String
  deriving DecidableEq, Repr

/-! ## Collaborator calls -/

/-- One observable step of a command: a call to a collaborator, in program order. -/
inductive Event where
  /-- Go `fmt.Fprintf(io.Out, ...)` / `fmt.Fprintln(io.Out, ...)` with the formatted text. -/
  | print (text : String)
  /-- Go `terminal.Debugf(format, err)`. -/
  | debugf (format : String) (err : Error)
  | orgByArg (ctx : Context)
  | getWireGuardPeers (ctx : Context) (slug : String)
  | promptSelect (ctx : Context) (options : List String)
  | removeWireGuardPeer (ctx : Context) (org : Organization) (name : String)
  | pruneInvalidPeers (ctx : Context)
  | getWireGuardPeerStatus (ctx : Context) (slug : String) (name : String)
  /-- Go `wireguard.Create(apiClient, org, region, name)`: takes no context. -/
  | create (org : Organization) (region : String) (name : String)
  | resolveOutputWriter (ctx : Context) (argIndex : Nat) (ask : String)
  | generateWgConf (peer : Peer) (privkey : String) (writer : String)
  | closeWriter (writer : String)
  | viperSet (value : Bool)
  | saveConfig
  | defaultClient (ctx : Context)
  | kill (ctx : Context)
  | establish (ctx : Context)
  | reestablish (ctx : Context) (slug : String)
  | renderJSON (peers : List Peer)
  | renderTable (header : List String) (rows : List (List String))
  | getAppCompact (ctx : Context) (appName : String)
  | buildContext (ctx : Context)
  | fromRemoteApp (ctx : Context) (appName : String)
  | resolveConfigFileFromPath (path : String)
  | configFileExistsAtPath (file : String)
  | confirmf (ctx : Context) (question : String)
  | writeToDisk (ctx : Context) (file : String)
  deriving DecidableEq, Repr

/-- The websockets setting: the viper value in memory and the value in the config file. -/
structure Config where
  websockets : Option Bool
  persisted : Option Bool
  deriving DecidableEq, Repr

/-- How a Go function ends: a value with a nil error, a non-nil error, or a run-time panic. -/
inductive Result (α : Type) where
  | ok (a : α) : Result α
  | err (e : Error) : Result α
  | panic : Result α
  deriving DecidableEq, Repr

/-- The outcome of running a command. -/
structure Out (α : Type) where
  config : Config
  trace : List Event
  result : Result α

/-- A Go function body: from the configuration state to an outcome. -/
def Prog (α : Type) : Type := Config → Out α

/-- Sequencing: a non-nil error or a panic ends the function (`if err != nil { return err }`). -/
def Prog.bind {α β : Type} (x : Prog α) (f : α → Prog β) : Prog β := fun c =>
  match x c with
  | ⟨c1, t1, .ok a⟩ =>
    match f a c1 with
    | ⟨c2, t2, r⟩ => ⟨c2, t1 ++ t2, r⟩
  | ⟨c1, t1, .err e⟩ => ⟨c1, t1, .err e⟩
  | ⟨c1, t1, .panic⟩ => ⟨c1, t1, .panic⟩

instance : Monad Prog where
  pure a := fun c => ⟨c, [], .ok a⟩
  bind := Prog.bind

/-- Go `return err` with a non-nil error. -/
def fail {α : Type} (e : Error) : Prog α := fun c => ⟨c, [], .err e⟩

/-- A collaborator call returning `(value, error)`. -/
def call {α : Type} (ev : Event) (r : Except Error α) : Prog α := fun c =>
  match r with
  | .ok a => ⟨c, [ev], .ok a⟩
  | .error e => ⟨c, [ev], .err e⟩

/-- A collaborator call returning only an `error` (`none` is nil). -/
def callErr (ev : Event) (r : Option Error) : Prog Unit := fun c =>
  match r with
  | none => ⟨c, [ev], .ok ()⟩
  | some e => ⟨c, [ev], .err e⟩

/-- A collaborator call that cannot fail. -/
def emit (ev : Event) : Prog Unit := fun c => ⟨c, [ev], .ok ()⟩

/-- A collaborator call whose Go results are handed to the caller as they are. -/
def ask {α : Type} (ev : Event) (r : α) : Prog α := fun c => ⟨c, [ev], .ok r⟩

/-- Go slice indexing `args[i]`: panics when `i` is out of range. -/
def index (args : List String) (i : Nat) : Prog String := fun c =>
  match args.get? i with
  | some a => ⟨c, [], .ok a⟩
  | none => ⟨c, [], .panic⟩

/-- The answers of the collaborators of the wireguard commands during one run. -/
structure World where
  orgByArg : Except Error Organization
  getWireGuardPeers : String → Except Error (List Peer)
  promptSelect : List String → Except Error String
  removeWireGuardPeer : Organization → String → Option Error
  pruneInvalidPeers : Option Error
  getWireGuardPeerStatus : String → String → Except Error PeerStatus
  create : Organization → String → String → Except Error WireGuardState
  resolveOutputWriter : Except Error (String × Bool)
  saveConfig : Option Error
  defaultClient : Option Error
  kill : Option Error
  establish : Option Error
  reestablish : String → Except Error String
  jsonOutput : Bool

/-! ## `internal/command/wireguard/wireguard.go` -/

/-- Modelled from the spec: `selectWireGuardPeer` is called by `runWireguardRemove` and
`runWireguardStatus` but its body is not in the sources at hand.  Spec §4.1: the name is resolved
"by presenting the caller the current peer list for interactive selection"; §8: with zero peers
the selection fails with `SelectionAborted`; "there is no fallback peer". -/
def selectWireGuardPeer (w : World) (ctx : Context) (slug : String) : Prog String := do
  let peers ← call (.getWireGuardPeers ctx slug) (w.getWireGuardPeers slug)
  if peers.isEmpty then
    fail .selectionAborted
  else
    call (.promptSelect ctx (peers.map Peer.name)) (w.promptSelect (peers.map Peer.name))

/-- Go `viper.Set(flyctl.ConfigWireGuardWebsockets, value)`: sets the value in memory. -/
def viperSet (value : Bool) : Prog Unit := fun c =>
  ⟨{ c with websockets := some value }, [.viperSet value], .ok ()⟩

/-- Modelled from the spec: `flyctl.SaveConfig` is not in the sources at hand.  Spec §4.1:
ToggleTransport "persists a process-wide configuration flag".  A successful save writes the value
in memory to the config file; a failed save returns its error and is taken to write nothing. -/
def saveConfig (w : World) : Prog (Option Error) := fun c =>
  match w.saveConfig with
  | none => ⟨{ c with persisted := c.websockets }, [.saveConfig], .ok none⟩
  | some e => ⟨c, [.saveConfig], .ok (some e)⟩

/-- The function `runWireguardList` (wireguard.go:22-56). -/
def runWireguardList (w : World) (ctx : Context) : Prog Unit := do
  let org ← call (.orgByArg ctx) w.orgByArg
  let peers ← call (.getWireGuardPeers ctx org.slug) (w.getWireGuardPeers org.slug)
  if w.jsonOutput then
    emit (.renderJSON peers)
  else
    emit (.renderTable ["Name", "Region", "Peer IP"]
      (peers.map fun peer => [peer.name, peer.region, peer.peerip]))

/-- The closure `tryKillingAgent` of `runWireguardWebsockets` (wireguard.go:76-85); its value is
the Go error it returns. -/
def tryKillingAgent (w : World) (ctx : Context) : Prog (Option Error) := do
  let err ← ask (.defaultClient ctx) w.defaultClient
  if err = some .agentNotRunning then
    return none
  else if err ≠ none then
    return err
  else
    ask (.kill ctx) w.kill

/-- The function `runWireguardWebsockets` (wireguard.go:58-94); `firstArg` is `flag.FirstArg(ctx)`. -/
def runWireguardWebsockets (w : World) (ctx : Context) (firstArg : String) : Prog Unit := do
  if firstArg = "enable" then
    viperSet true
  else if firstArg = "disable" then
    viperSet false
  else
    emit (.print "bad arg: flyctl wireguard websockets (enable|disable)\n")
  match ← saveConfig w with
  | some err => fail (.wrap "error saving config file" err)
  | none => pure ()
  -- kill the agent if necessary, if that fails print manual instructions
  match ← tryKillingAgent w ctx with
  | some err =>
    emit (.debugf "error stopping the agent: %s" err)
    emit (.print "Run `flyctl agent restart` to make changes take effect.\n")
  | none => pure ()
  return ()

/-- The function `runWireguardReset` (wireguard.go:96-117).  `agent.Establish` is given
`config.NewContext(context.Background(), config.FromContext(ctx))` and `Reestablish` is given
`context.Background()`. -/
def runWireguardReset (w : World) (ctx : Context) : Prog Unit := do
  let org ← call (.orgByArg ctx) w.orgByArg
  callErr (.establish (.withValue .background "config")) w.establish
  let name ← call (.reestablish .background org.slug) (w.reestablish org.slug)
  emit (.print ("New WireGuard peer for organization \x27" ++ org.slug ++ "\x27: \x27" ++ name
    ++ "\x27\n"))

/-- The warning printed by `runWireguardCreate` (wireguard.go:147-151). -/
def privateKeyWarning : String :=
  "\n!!!! WARNING: Output includes private key. Private keys cannot be recovered !!!!\n" ++
  "!!!! after creating the peer; if you lose the key, you\x27ll need to remove    !!!!\n" ++
  "!!!! and re-add the peering connection.                                     !!!!\n"

/-- The function `runWireguardCreate` (wireguard.go:119-169); `args` is `flag.Args(ctx)`.  `args[1]` and
`args[2]` are read only behind their length checks, `getD` gives their values there.  The answer
of `resolveOutputWriter` is the name of the writer and `shouldClose`. -/
def runWireguardCreate (w : World) (ctx : Context) (args : List String) : Prog Unit := do
  let org ← call (.orgByArg ctx) w.orgByArg
  let mut region := ""
  let mut name := ""
  if args.length > 1 ∧ args.getD 1 "" ≠ "" then
    region := args.getD 1 ""
  if args.length > 2 ∧ args.getD 2 "" ≠ "" then
    name := args.getD 2 ""
  let state ← call (.create org region name) (w.create org region name)
  let data := state.peer
  emit (.print privateKeyWarning)
  let (wr, shouldClose) ← call
    (.resolveOutputWriter ctx 3 "Filename to store WireGuard configuration in, or \x27stdout\x27: ")
    w.resolveOutputWriter
  emit (.generateWgConf data state.localPrivate wr)
  if shouldClose then
    emit (.print ("Wrote WireGuard configuration to " ++ wr ++
      "; load in your WireGuard client\n"))
  -- the deferred `w.Close()`
  if shouldClose then
    emit (.closeWriter wr)

/-- The function `runWireguardRemove` (wireguard.go:171-201); `args` is `flag.Args(ctx)`. -/
def runWireguardRemove (w : World) (ctx : Context) (args : List String) : Prog Unit := do
  let org ← call (.orgByArg ctx) w.orgByArg
  let name ← if args.length ≥ 2 then index args 1 else selectWireGuardPeer w ctx org.slug
  emit (.print ("Removing WireGuard peer \"" ++ name ++ "\" for organization " ++ org.slug ++ "\n"))
  callErr (.removeWireGuardPeer ctx org name) (w.removeWireGuardPeer org name)
  emit (.print "Removed peer.\n")
  callErr (.pruneInvalidPeers ctx) w.pruneInvalidPeers

/-- The function `runWireguardStatus` (wireguard.go:203-260); `args` is `flag.Args(ctx)`. -/
def runWireguardStatus (w : World) (ctx : Context) (args : List String) : Prog Unit := do
  let org ← call (.orgByArg ctx) w.orgByArg
  let name ← if args.length ≥ 2 then index args 1 else selectWireGuardPeer w ctx org.slug
  let status ← call (.getWireGuardPeerStatus ctx org.slug name)
    (w.getWireGuardPeerStatus org.slug name)
  emit (.print ("Alive: " ++ toString status.live ++ "\n"))
  if status.wgError ≠ "" then
    emit (.print ("Gateway error: " ++ status.wgError ++ "\n"))
  if !status.live then
    return ()
  if status.endpoint ≠ "" then
    emit (.print ("Last Source Address: " ++ status.endpoint ++ "\n"))
  let mut ago := ""
  if status.sinceAdded ≠ "" then
    ago := " (" ++ status.sinceAdded ++ " ago)"
  if status.lastHandshake ≠ "" then
    emit (.print ("Last Handshake At: " ++ status.lastHandshake ++ ago ++ "\n"))
  ago := ""
  if status.sinceHandshake ≠ "" then
    ago := " (" ++ status.sinceHandshake ++ " ago)"
  emit (.print ("Installed On Gateway At: " ++ status.added ++ ago ++ "\n"))
  emit (.print ("Traffic: rx:" ++ toString status.rx ++ " tx:" ++ toString status.tx ++ "\n"))

/-! ## `internal/command/config/save.go` -/

/-- The answers of the collaborators of `config save` during one run. -/
structure SaveWorld where
  /-- Go `appconfig.NameFromContext(ctx)`. -/
  appName : String
  /-- Go `flag.GetBool(ctx, "yes")`. -/
  autoConfirm : Bool
  getAppCompact : Except Error Unit
  buildContext : Except Error Context
  fromRemoteApp : Except Error Unit
  /-- Go `state.WorkingDirectory(ctx)`. -/
  workingDirectory : String
  /-- Go `flag.IsSpecified(ctx, "config")`. -/
  configSpecified : Bool
  /-- Go `flag.GetString(ctx, "config")`. -/
  configFlag : String
  resolveConfigFileFromPath : String → Except Error String
  configFileExistsAtPath : String → Bool × Option Error
  confirm : String → Except Error Bool
  writeToDisk : String → Option Error

/-- The function `runSave` (save.go:36-77). -/
def runSave (w : SaveWorld) (ctx : Context) : Prog Unit := do
  let appName := w.appName
  let autoConfirm := w.autoConfirm
  match ← ask (.getAppCompact ctx appName) w.getAppCompact with
  | .error err => fail (.wrap ("error getting app with name " ++ appName) err)
  | .ok _ => pure ()
  let ctx ← call (.buildContext ctx) w.buildContext
  let _cfg ← call (.fromRemoteApp ctx appName) w.fromRemoteApp
  let mut path := w.workingDirectory
  if w.configSpecified then
    path := w.configFlag
  let configfilename ← call (.resolveConfigFileFromPath path) (w.resolveConfigFileFromPath path)
  let (fileExists, _) ← ask (.configFileExistsAtPath configfilename)
    (w.configFileExistsAtPath configfilename)
  if fileExists ∧ ¬ autoConfirm then
    let confirmation ← call
      (.confirmf ctx ("An existing configuration file has been found\nOverwrite file \x27" ++
        configfilename ++ "\x27"))
      (w.confirm configfilename)
    if !confirmation then
      return ()
  callErr (.writeToDisk ctx configfilename) (w.writeToDisk configfilename)

/-! ## Trace predicates -/

/-- A call to `wireguard.PruneInvalidPeers`. -/
def Event.isPrune : Event → Bool
  | .pruneInvalidPeers _ => true
  | _ => false

/-- A call to `RemoveWireGuardPeer` that returned a nil error in world `w`. -/
def Event.isRemoveOk (w : World) : Event → Bool
  | .removeWireGuardPeer _ org name => (w.removeWireGuardPeer org name).isNone
  | _ => false

/-- A call to `RemoveWireGuardPeer`. -/
def Event.isRemove : Event → Bool
  | .removeWireGuardPeer _ _ _ => true
  | _ => false

/-- A call to `GetWireGuardPeerStatus`. -/
def Event.isPeerStatus : Event → Bool
  | .getWireGuardPeerStatus _ _ _ => true
  | _ => false

/-- A call to the local agent (AgentConnection). -/
def Event.isAgentCall : Event → Bool
  | .defaultClient _ => true
  | .kill _ => true
  | .establish _ => true
  | .reestablish _ _ => true
  | _ => false

/-- A call to the agent's `Kill`. -/
def Event.isKill : Event → Bool
  | .kill _ => true
  | _ => false

/-- A call to `viper.Set`. -/
def Event.isViperSet : Event → Bool
  | .viperSet _ => true
  | _ => false

/-- A call to `flyctl.SaveConfig` that returned a nil error in world `w`. -/
def Event.isSaveOk (w : World) : Event → Bool
  | .saveConfig => w.saveConfig.isNone
  | _ => false

/-- A call to `cfg.WriteToDisk`. -/
def Event.isWriteToDisk : Event → Bool
  | .writeToDisk _ _ => true
  | _ => false

/-- A call to `prompt.Confirmf`. -/
def Event.isConfirm : Event → Bool
  | .confirmf _ _ => true
  | _ => false

/-- A call to `wireguard.Create`. -/
def Event.isCreate : Event → Bool
  | .create _ _ _ => true
  | _ => false

/-- A call to `wireguard.Create` that returned a peer and its private key in world `w`. -/
def Event.isCreateOk (w : World) : Event → Bool
  | .create org region name =>
    match w.create org region name with
    | .ok _ => true
    | .error _ => false
  | _ => false

/-- A call to `resolveOutputWriter`, which chooses the output destination. -/
def Event.isResolveWriter : Event → Bool
  | .resolveOutputWriter _ _ _ => true
  | _ => false

/-- A call to `resolveOutputWriter` that returned a writer in world `w`. -/
def Event.isResolveWriterOk (w : World) : Event → Bool
  | .resolveOutputWriter _ _ _ =>
    match w.resolveOutputWriter with
    | .ok _ => true
    | .error _ => false
  | _ => false

/-- The print of the private-key warning of `runWireguardCreate`. -/
def Event.isWarning (ev : Event) : Bool :=
  decide (ev = .print privateKeyWarning)

/-- A call to `generateWgConf`, which writes the configuration with the private key. -/
def Event.isGenerate : Event → Bool
  | .generateWgConf _ _ _ => true
  | _ => false

/-- A PeerStore or AgentConnection call (spec §6), `PruneInvalidPeers` and `agent.DefaultClient`
included. -/
def Event.isStoreOrAgentCall : Event → Bool
  | .getWireGuardPeers _ _ => true
  | .removeWireGuardPeer _ _ _ => true
  | .getWireGuardPeerStatus _ _ _ => true
  | .create _ _ _ => true
  | .pruneInvalidPeers _ => true
  | .defaultClient _ => true
  | .kill _ => true
  | .establish _ => true
  | .reestablish _ _ => true
  | _ => false

/-- The context a call is given, `none` when it takes no context. -/
def Event.context : Event → Option Context
  | .orgByArg ctx => some ctx
  | .getWireGuardPeers ctx _ => some ctx
  | .promptSelect ctx _ => some ctx
  | .removeWireGuardPeer ctx _ _ => some ctx
  | .pruneInvalidPeers ctx => some ctx
  | .getWireGuardPeerStatus ctx _ _ => some ctx
  | .resolveOutputWriter ctx _ _ => some ctx
  | .defaultClient ctx => some ctx
  | .kill ctx => some ctx
  | .establish ctx => some ctx
  | .reestablish ctx _ => some ctx
  | .getAppCompact ctx _ => some ctx
  | .buildContext ctx => some ctx
  | .fromRemoteApp ctx _ => some ctx
  | .confirmf ctx _ => some ctx
  | .writeToDisk ctx _ => some ctx
  | _ => none

/-- Whether cancelling `root` cancels the call: it was given `root` or a context made from it. -/
def Event.cancelledWith (root : Context) (ev : Event) : Bool :=
  match ev.context with
  | some ctx => Context.derivesFrom root ctx
  | none => false

/-- A call that is no PeerStore or AgentConnection call, or one that is given exactly `ctx`. -/
def Event.givenContext (ctx : Context) (ev : Event) : Bool :=
  !ev.isStoreOrAgentCall || decide (ev.context = some ctx)

/-- What `runWireguardReset` may call: `agent.Establish` with
`config.NewContext(context.Background(), ...)`, `Reestablish` with `context.Background()`, and
calls that are no PeerStore or AgentConnection call. -/
def Event.resetCall : Event → Bool
  | .establish ctx => decide (ctx = .withValue .background "config")
  | .reestablish ctx _ => decide (ctx = .background)
  | ev => !ev.isStoreOrAgentCall

/-- A call that is no PeerStore or AgentConnection call, or one that takes no context. -/
def Event.givenNoContext (ev : Event) : Bool :=
  !ev.isStoreOrAgentCall || decide (ev.context = none)

/-- The calls made while selecting a peer: reading the peer list and asking the user. -/
def Event.isSelection : Event → Bool
  | .getWireGuardPeers _ _ => true
  | .promptSelect _ _ => true
  | _ => false

/-- The calls a read-only command may make: organization lookup, the peer list and the
selection among it, the peer status, and printing. -/
def Event.isRead : Event → Bool
  | .print _ => true
  | .orgByArg _ => true
  | .getWireGuardPeers _ _ => true
  | .promptSelect _ _ => true
  | .getWireGuardPeerStatus _ _ _ => true
  | _ => false

/-- The calls that change remote, agent or configuration state: createPeer, removePeer, Prune,
establish, reestablish, kill, and writing the configuration. -/
def Event.isMutation : Event → Bool
  | .create _ _ _ => true
  | .removeWireGuardPeer _ _ _ => true
  | .pruneInvalidPeers _ => true
  | .establish _ => true
  | .reestablish _ _ => true
  | .kill _ => true
  | .viperSet _ => true
  | .saveConfig => true
  | .writeToDisk _ _ => true
  | _ => false

/-- No event satisfying `later` occurs before the first event satisfying `first`. -/
def onlyAfter (first later : Event → Bool) : List Event → Bool
  | [] => true
  | ev :: rest => !later ev && (first ev || onlyAfter first later rest)

/-- The Go return value of a call that returns only an error. -/
def Result.ofError : Option Error → Result Unit
  | none => .ok ()
  | some e => .err e

/-- The outcome `o` with the events `t` put in front of its trace. -/
def Out.after {α : Type} (t : List Event) (o : Out α) : Out α :=
  ⟨o.config, t ++ o.trace, o.result⟩

/-- Every call made by every run of `x` satisfies `P`. -/
def Prog.Calls {α : Type} (P : Event → Bool) (x : Prog α) : Prop :=
  ∀ c, ∀ ev ∈ (x c).trace, P ev = true

/-- Every run of `x` leaves the configuration as it was. -/
def Prog.Frame {α : Type} (x : Prog α) : Prop :=
  ∀ c, (x c).config = c

/-! ## Example runs -/

/-- The context of a command invocation: cancellable, made from the background context. -/
def invocation : Context := .withCancel .background 1

/-- The configuration before a run: the websockets flag is unset. -/
def startConfig : Config := ⟨none, none⟩

/-- A world in which every collaborator succeeds; organization `acme` has the peer `laptop`. -/
def calmWorld : World where
  orgByArg := .ok ⟨"acme"⟩
  getWireGuardPeers := fun _ => .ok [⟨"laptop", "iad", "fdaa:0:1::2"⟩]
  promptSelect := fun _ => .ok "laptop"
  removeWireGuardPeer := fun _ _ => none
  pruneInvalidPeers := none
  getWireGuardPeerStatus := fun _ _ =>
    .ok ⟨true, "", "203.0.113.7:51820", "2023-05-02 10:00:00", "5s", "2023-04-01 09:00:00",
      "745h", 1024, 2048⟩
  create := fun _ region name => .ok ⟨⟨name, region, "fdaa:0:1::3"⟩, "PRIVATE"⟩
  resolveOutputWriter := .ok ("wg.conf", true)
  saveConfig := none
  defaultClient := none
  kill := none
  establish := none
  reestablish := fun _ => .ok "interactive-agent-1"
  jsonOutput := false

/-- As `calmWorld`, but `RemoveWireGuardPeer` fails. -/
def removeFailsWorld : World :=
  { calmWorld with removeWireGuardPeer := fun _ _ => some (.other "peer not found") }

/-- As `calmWorld`, but the output destination cannot be opened. -/
def noWriterWorld : World :=
  { calmWorld with resolveOutputWriter := .error (.other "open wg.conf: permission denied") }

/-- As `calmWorld`, but the organization has no peers. -/
def noPeersWorld : World :=
  { calmWorld with getWireGuardPeers := fun _ => .ok [] }

/-- As `calmWorld`, but the agent cannot be killed. -/
def killFailsWorld : World :=
  { calmWorld with kill := some (.other "agent does not answer") }

/-- A `config save` world: `fly.toml` exists, `--yes` is not set, the user declines. -/
def declineWorld : SaveWorld where
  appName := "app"
  autoConfirm := false
  getAppCompact := .ok ()
  buildContext := .ok (.withValue invocation "app")
  fromRemoteApp := .ok ()
  workingDirectory := "/work"
  configSpecified := false
  configFlag := ""
  resolveConfigFileFromPath := fun path => .ok (path ++ "/fly.toml")
  configFileExistsAtPath := fun _ => (true, none)
  confirm := fun _ => .ok false
  writeToDisk := fun _ => none

/-! ## Equations for running a function body -/

theorem onlyAfter_iff (first later : Event → Bool) (t : List Event) :
    onlyAfter first later t = true ↔
      ∀ pre ev post, t = pre ++ ev :: post → later ev = true → ∃ x ∈ pre, first x = true := by
  induction t with
  | nil =>
    simp [onlyAfter]
  | cons a rest ih =>
    simp only [onlyAfter, Bool.or_eq_true, Bool.and_eq_true, Bool.not_eq_true', ih]
    constructor
    · rintro ⟨hna, h⟩ pre ev post hsplit hlater
      cases pre with
      | nil =>
        simp only [List.nil_append, List.cons.injEq] at hsplit
        obtain ⟨rfl, rfl⟩ := hsplit
        simp [hna] at hlater
      | cons p pre =>
        simp only [List.cons_append, List.cons.injEq] at hsplit
        obtain ⟨rfl, rfl⟩ := hsplit
        rcases h with h | h
        · exact ⟨a, by simp, h⟩
        · obtain ⟨x, hx, hf⟩ := h pre ev post rfl hlater
          exact ⟨x, by simp [hx], hf⟩
    · intro h
      refine ⟨?_, ?_⟩
      · by_contra hl
        simp only [Bool.not_eq_false] at hl
        obtain ⟨x, hx, _⟩ := h [] a rest rfl hl
        simp at hx
      · by_cases hf : first a = true
        · exact Or.inl hf
        · right
          intro pre ev post hsplit hlater
          obtain ⟨x, hx, hfx⟩ := h (a :: pre) ev post (by simp [hsplit]) hlater
          simp only [List.mem_cons] at hx
          rcases hx with rfl | hx
          · exact absurd hfx hf
          · exact ⟨x, hx, hfx⟩

@[simp] theorem Out.after_config {α : Type} (t : List Event) (o : Out α) :
    (Out.after t o).config = o.config := rfl

@[simp] theorem Out.after_trace {α : Type} (t : List Event) (o : Out α) :
    (Out.after t o).trace = t ++ o.trace := rfl

@[simp] theorem Out.after_result {α : Type} (t : List Event) (o : Out α) :
    (Out.after t o).result = o.result := rfl

theorem run_pure {α : Type} (a : α) (c : Config) :
    (pure a : Prog α) c = ⟨c, [], .ok a⟩ := rfl

theorem run_fail {α : Type} (e : Error) (c : Config) :
    (fail e : Prog α) c = ⟨c, [], .err e⟩ := rfl

theorem run_emit (ev : Event) (c : Config) : emit ev c = ⟨c, [ev], .ok ()⟩ := rfl

theorem run_call_ok {α : Type} (ev : Event) (a : α) (c : Config) :
    call ev (.ok a) c = ⟨c, [ev], .ok a⟩ := rfl

theorem run_call_error {α : Type} (ev : Event) (e : Error) (c : Config) :
    (call ev (.error e) : Prog α) c = ⟨c, [ev], .err e⟩ := rfl

theorem run_callErr_none (ev : Event) (c : Config) :
    callErr ev none c = ⟨c, [ev], .ok ()⟩ := rfl

theorem run_callErr_some (ev : Event) (e : Error) (c : Config) :
    callErr ev (some e) c = ⟨c, [ev], .err e⟩ := rfl

theorem run_bind {α β : Type} (x : Prog α) (f : α → Prog β) (c : Config) :
    (x >>= f) c =
      match x c with
      | ⟨c1, t1, .ok a⟩ => Out.after t1 (f a c1)
      | ⟨c1, t1, .err e⟩ => ⟨c1, t1, .err e⟩
      | ⟨c1, t1, .panic⟩ => ⟨c1, t1, .panic⟩ := by
  show Prog.bind x f c = _
  unfold Prog.bind
  rcases x c with ⟨c1, t1, a | e | _⟩ <;> rfl

theorem Out.after_nil {α : Type} (o : Out α) : Out.after [] o = o := by
  rcases o with ⟨c1, t1, r⟩
  rfl

theorem bind_pure_run {α β : Type} (a : α) (f : α → Prog β) (c : Config) :
    ((pure a : Prog α) >>= f) c = f a c := by
  rw [run_bind, run_pure]
  exact Out.after_nil _

theorem bind_fail_run {α β : Type} (e : Error) (f : α → Prog β) (c : Config) :
    ((fail e : Prog α) >>= f) c = ⟨c, [], .err e⟩ := by
  rw [run_bind, run_fail]

theorem bind_emit_run {β : Type} (ev : Event) (f : Unit → Prog β) (c : Config) :
    (emit ev >>= f) c = Out.after [ev] (f () c) := by
  rw [run_bind, run_emit]

theorem bind_call_ok_run {α β : Type} (ev : Event) (a : α) (f : α → Prog β) (c : Config) :
    (call ev (.ok a) >>= f) c = Out.after [ev] (f a c) := by
  rw [run_bind, run_call_ok]

theorem bind_call_error_run {α β : Type} (ev : Event) (e : Error) (f : α → Prog β)
    (c : Config) : ((call ev (.error e) : Prog α) >>= f) c = ⟨c, [ev], .err e⟩ := by
  rw [run_bind, run_call_error]

theorem bind_callErr_none_run {β : Type} (ev : Event) (f : Unit → Prog β) (c : Config) :
    (callErr ev none >>= f) c = Out.after [ev] (f () c) := by
  rw [run_bind, run_callErr_none]

theorem bind_callErr_some_run {β : Type} (ev : Event) (e : Error) (f : Unit → Prog β)
    (c : Config) : (callErr ev (some e) >>= f) c = ⟨c, [ev], .err e⟩ := by
  rw [run_bind, run_callErr_some]

theorem run_call {α : Type} (ev : Event) (r : Except Error α) (c : Config) :
    call ev r c =
      match r with
      | .ok a => ⟨c, [ev], .ok a⟩
      | .error e => ⟨c, [ev], .err e⟩ := rfl

theorem run_callErr (ev : Event) (r : Option Error) (c : Config) :
    callErr ev r c =
      match r with
      | none => ⟨c, [ev], .ok ()⟩
      | some e => ⟨c, [ev], .err e⟩ := rfl

theorem bind_call_run {α β : Type} (ev : Event) (r : Except Error α) (f : α → Prog β)
    (c : Config) :
    (call ev r >>= f) c =
      match r with
      | .ok a => Out.after [ev] (f a c)
      | .error e => ⟨c, [ev], .err e⟩ := by
  rcases r with e | a
  · exact bind_call_error_run ev e f c
  · exact bind_call_ok_run ev a f c

theorem bind_callErr_run {β : Type} (ev : Event) (r : Option Error) (f : Unit → Prog β)
    (c : Config) :
    (callErr ev r >>= f) c =
      match r with
      | none => Out.after [ev] (f () c)
      | some e => ⟨c, [ev], .err e⟩ := by
  rcases r with _ | e
  · exact bind_callErr_none_run ev f c
  · exact bind_callErr_some_run ev e f c

theorem bind_ask_run {α β : Type} (ev : Event) (r : α) (f : α → Prog β) (c : Config) :
    (ask ev r >>= f) c = Out.after [ev] (f r c) := by
  rw [run_bind]
  rfl

theorem run_ask {α : Type} (ev : Event) (r : α) (c : Config) :
    ask ev r c = ⟨c, [ev], .ok r⟩ := rfl

theorem bind_viperSet_run {β : Type} (value : Bool) (f : Unit → Prog β) (c : Config) :
    (viperSet value >>= f) c =
      Out.after [.viperSet value] (f () { c with websockets := some value }) := by
  rw [run_bind]
  rfl

theorem bind_saveConfig_run {β : Type} (w : World) (f : Option Error → Prog β) (c : Config) :
    (saveConfig w >>= f) c =
      match w.saveConfig with
      | none => Out.after [.saveConfig] (f none { c with persisted := c.websockets })
      | some e => Out.after [.saveConfig] (f (some e) c) := by
  rw [run_bind]
  unfold saveConfig
  rcases w.saveConfig with _ | e <;> rfl

theorem bind_index_run {β : Type} (args : List String) (i : Nat) (f : String → Prog β)
    (c : Config) :
    (index args i >>= f) c =
      match args.get? i with
      | some a => f a c
      | none => ⟨c, [], .panic⟩ := by
  rw [run_bind]
  unfold index
  rcases args.get? i with _ | a
  · rfl
  · exact Out.after_nil _

theorem bind_assoc_run {α β γ : Type} (x : Prog α) (f : α → Prog β) (g : β → Prog γ) :
    (x >>= f) >>= g = x >>= fun a => f a >>= g := by
  funext c
  simp only [run_bind]
  rcases x c with ⟨c1, t1, a | e | _⟩
  · simp only []
    rcases f a c1 with ⟨c2, t2, b | e | _⟩
    · simp [Out.after]
    · simp [Out.after]
    · simp [Out.after]
  · rfl
  · rfl

theorem bind_ite_run {α β : Type} (p : Prop) [Decidable p] (x y : Prog α) (f : α → Prog β) :
    (if p then x else y) >>= f = if p then x >>= f else y >>= f := by
  split <;> rfl

theorem run_ite {α : Type} (p : Prop) [Decidable p] (x y : Prog α) (c : Config) :
    (if p then x else y) c = if p then x c else y c := by
  split <;> rfl

theorem removing_ne_removed (name slug : String) :
    "Removing WireGuard peer \"" ++ name ++ "\" for organization " ++ slug ++ "\n" ≠
      "Removed peer.\n" := by
  intro h
  have h2 := congrArg String.data h
  simp at h2

theorem removed_ne_removing (name slug : String) :
    "Removed peer.\n" ≠
      "Removing WireGuard peer \"" ++ name ++ "\" for organization " ++ slug ++ "\n" :=
  (removing_ne_removed name slug).symm

theorem calls_bind {α β : Type} {P : Event → Bool} {x : Prog α} {f : α → Prog β}
    (hx : Prog.Calls P x) (hf : ∀ a, Prog.Calls P (f a)) : Prog.Calls P (x >>= f) := by
  intro c ev hev
  rw [run_bind] at hev
  have hxc := hx c
  rcases hrun : x c with ⟨c1, t1, a | e | _⟩
  · rw [hrun] at hev hxc
    simp only [Out.after_trace, List.mem_append] at hev
    rcases hev with h | h
    · exact hxc ev h
    · exact hf a c1 ev h
  · rw [hrun] at hev hxc
    exact hxc ev hev
  · rw [hrun] at hev hxc
    exact hxc ev hev

theorem calls_pure {α : Type} {P : Event → Bool} (a : α) : Prog.Calls P (pure a : Prog α) := by
  intro c ev hev
  simp [run_pure] at hev

theorem calls_fail {α : Type} {P : Event → Bool} (e : Error) :
    Prog.Calls P (fail e : Prog α) := by
  intro c ev hev
  simp [run_fail] at hev

theorem calls_emit {P : Event → Bool} {ev : Event} (h : P ev = true) :
    Prog.Calls P (emit ev) := by
  intro c x hx
  simp only [run_emit, List.mem_singleton] at hx
  rw [hx]
  exact h

theorem calls_ask {α : Type} {P : Event → Bool} {ev : Event} (r : α) (h : P ev = true) :
    Prog.Calls P (ask ev r) := by
  intro c x hx
  simp only [run_ask, List.mem_singleton] at hx
  rw [hx]
  exact h

theorem calls_call {α : Type} {P : Event → Bool} {ev : Event} (r : Except Error α)
    (h : P ev = true) : Prog.Calls P (call ev r) := by
  intro c x hx
  rcases r with e | a
  · simp only [run_call_error, List.mem_singleton] at hx
    rw [hx]
    exact h
  · simp only [run_call_ok, List.mem_singleton] at hx
    rw [hx]
    exact h

theorem calls_callErr {P : Event → Bool} {ev : Event} (r : Option Error) (h : P ev = true) :
    Prog.Calls P (callErr ev r) := by
  intro c x hx
  rcases r with _ | e
  · simp only [run_callErr_none, List.mem_singleton] at hx
    rw [hx]
    exact h
  · simp only [run_callErr_some, List.mem_singleton] at hx
    rw [hx]
    exact h

theorem calls_index {P : Event → Bool} (args : List String) (i : Nat) :
    Prog.Calls P (index args i) := by
  intro c ev hev
  unfold index at hev
  split at hev <;> simp at hev

theorem calls_viperSet {P : Event → Bool} (value : Bool) (h : P (.viperSet value) = true) :
    Prog.Calls P (viperSet value) := by
  intro c x hx
  simp only [viperSet, List.mem_singleton] at hx
  rw [hx]
  exact h

theorem calls_saveConfig {P : Event → Bool} (w : World) (h : P .saveConfig = true) :
    Prog.Calls P (saveConfig w) := by
  intro c x hx
  unfold saveConfig at hx
  split at hx <;>
    · simp only [List.mem_singleton] at hx
      rw [hx]
      exact h

theorem calls_ite {α : Type} {P : Event → Bool} {p : Prop} [Decidable p] {x y : Prog α}
    (hx : Prog.Calls P x) (hy : Prog.Calls P y) : Prog.Calls P (if p then x else y) := by
  split
  · exact hx
  · exact hy

theorem frame_bind {α β : Type} {x : Prog α} {f : α → Prog β}
    (hx : Prog.Frame x) (hf : ∀ a, Prog.Frame (f a)) : Prog.Frame (x >>= f) := by
  intro c
  rw [run_bind]
  have hxc := hx c
  rcases hrun : x c with ⟨c1, t1, a | e | _⟩
  · rw [hrun] at hxc
    simp only at hxc
    simp only [Out.after_config]
    rw [hf a c1, hxc]
  · rw [hrun] at hxc
    exact hxc
  · rw [hrun] at hxc
    exact hxc

theorem frame_pure {α : Type} (a : α) : Prog.Frame (pure a : Prog α) := fun _ => rfl

theorem frame_fail {α : Type} (e : Error) : Prog.Frame (fail e : Prog α) := fun _ => rfl

theorem frame_emit (ev : Event) : Prog.Frame (emit ev) := fun _ => rfl

theorem frame_ask {α : Type} (ev : Event) (r : α) : Prog.Frame (ask ev r) := fun _ => rfl

theorem frame_call {α : Type} (ev : Event) (r : Except Error α) : Prog.Frame (call ev r) := by
  intro c
  rcases r with e | a <;> rfl

theorem frame_callErr (ev : Event) (r : Option Error) : Prog.Frame (callErr ev r) := by
  intro c
  rcases r with _ | e <;> rfl

theorem frame_index (args : List String) (i : Nat) : Prog.Frame (index args i) := by
  intro c
  unfold index
  rcases args.get? i with _ | a <;> rfl

theorem frame_ite {α : Type} {p : Prop} [Decidable p] {x y : Prog α}
    (hx : Prog.Frame x) (hy : Prog.Frame y) : Prog.Frame (if p then x else y) := by
  split
  · exact hx
  · exact hy

theorem run_bind_err {α β : Type} {x : Prog α} {c : Config} {e : Error} (f : α → Prog β)
    (h : (x c).result = .err e) : (x >>= f) c = ⟨(x c).config, (x c).trace, .err e⟩ := by
  rw [run_bind]
  rcases hrun : x c with ⟨c1, t1, a | e1 | _⟩
  · rw [hrun] at h
    simp at h
  · rw [hrun] at h
    simp only [Result.err.injEq] at h
    simp [h]
  · rw [hrun] at h
    simp at h

theorem select_calls (w : World) (ctx : Context) (slug : String) :
    Prog.Calls Event.isSelection (selectWireGuardPeer w ctx slug) := by
  simp only [selectWireGuardPeer]
  repeat' first
    | with_reducible refine calls_bind ?_ (fun _ => ?_)
    | with_reducible refine calls_ite ?_ ?_
    | with_reducible refine calls_call _ ?_
    | with_reducible exact calls_fail _
    | rfl

theorem isRead_not_isMutation (ev : Event) (h : ev.isRead = true) : ev.isMutation = false := by
  cases ev <;> first | rfl | simp [Event.isRead] at h

/-! ## The claims -/

/-- C1: in `runWireguardRemove`, `PruneInvalidPeers` is called if and only if
`RemoveWireGuardPeer` returned a nil error, and only after it did; when
`RemoveWireGuardPeer` fails the command returns that error, does not print "Removed peer." and
never calls Prune; when it succeeds the result of the command is the result of Prune. -/
theorem remove_prunes_iff_removed (w : World) (ctx : Context) (args : List String) (c : Config) :
    ((∃ ev ∈ (runWireguardRemove w ctx args c).trace, ev.isPrune = true) ↔
      ∃ ev ∈ (runWireguardRemove w ctx args c).trace, ev.isRemoveOk w = true) ∧
    (∀ pre ev post, (runWireguardRemove w ctx args c).trace = pre ++ ev :: post →
      ev.isPrune = true → ∃ x ∈ pre, x.isRemoveOk w = true) ∧
    (∀ ctx1 org name e,
      Event.removeWireGuardPeer ctx1 org name ∈ (runWireguardRemove w ctx args c).trace →
      w.removeWireGuardPeer org name = some e →
        (runWireguardRemove w ctx args c).result = .err e ∧
        Event.print "Removed peer.\n" ∉ (runWireguardRemove w ctx args c).trace ∧
        ∀ ev ∈ (runWireguardRemove w ctx args c).trace, ev.isPrune = false) ∧
    (∀ ctx1 org name,
      Event.removeWireGuardPeer ctx1 org name ∈ (runWireguardRemove w ctx args c).trace →
      w.removeWireGuardPeer org name = none →
        (runWireguardRemove w ctx args c).result = Result.ofError w.pruneInvalidPeers ∧
        Event.print "Removed peer.\n" ∈ (runWireguardRemove w ctx args c).trace) := by
  rw [← onlyAfter_iff]
  generalize hout : runWireguardRemove w ctx args c = out
  simp only [runWireguardRemove, selectWireGuardPeer, bind_assoc_run, bind_ite_run, run_ite,
    bind_call_run, bind_callErr_run, bind_emit_run, bind_index_run, bind_fail_run,
    run_callErr] at hout
  repeat' split at hout
  all_goals subst hout
  all_goals simp_all [Event.isPrune, Event.isRemoveOk, onlyAfter, Result.ofError,
    removing_ne_removed, removed_ne_removing]

/-- Runs of `runWireguardRemove` with a successful and with a failing removal. -/
theorem remove_prunes_iff_removed_witness :
    (Event.removeWireGuardPeer invocation ⟨"acme"⟩ "laptop" ∈
        (runWireguardRemove calmWorld invocation ["acme", "laptop"] startConfig).trace ∧
      calmWorld.removeWireGuardPeer ⟨"acme"⟩ "laptop" = none ∧
      (runWireguardRemove calmWorld invocation ["acme", "laptop"] startConfig).result =
        Result.ofError calmWorld.pruneInvalidPeers) ∧
    (Event.removeWireGuardPeer invocation ⟨"acme"⟩ "laptop" ∈
        (runWireguardRemove removeFailsWorld invocation ["acme", "laptop"] startConfig).trace ∧
      removeFailsWorld.removeWireGuardPeer ⟨"acme"⟩ "laptop" = some (.other "peer not found") ∧
      (runWireguardRemove removeFailsWorld invocation ["acme", "laptop"] startConfig).result =
        .err (.other "peer not found")) :=
  ⟨⟨by decide, rfl,
      ((remove_prunes_iff_removed calmWorld invocation ["acme", "laptop"] startConfig).2.2.2
        invocation ⟨"acme"⟩ "laptop" (by decide) rfl).1⟩,
    ⟨by decide, rfl,
      ((remove_prunes_iff_removed removeFailsWorld invocation ["acme", "laptop"]
        startConfig).2.2.1 invocation ⟨"acme"⟩ "laptop" _ (by decide) rfl).1⟩⟩

/-- C2 (counterexample): with a destination that cannot be opened, `runWireguardCreate` calls
`wireguard.Create` before `resolveOutputWriter`; the peer is created, the command then fails
choosing the destination, and the private key is never written. -/
theorem create_precedes_destination_choice :
    ¬ (∀ pre ev post,
        (runWireguardCreate noWriterWorld invocation ["acme"] startConfig).trace =
          pre ++ ev :: post →
        ev.isCreate = true → ∃ x ∈ pre, x.isResolveWriter = true) ∧
    (∃ ev ∈ (runWireguardCreate noWriterWorld invocation ["acme"] startConfig).trace,
      ev.isCreateOk noWriterWorld = true) ∧
    (runWireguardCreate noWriterWorld invocation ["acme"] startConfig).result =
      .err (.other "open wg.conf: permission denied") ∧
    (∀ ev ∈ (runWireguardCreate noWriterWorld invocation ["acme"] startConfig).trace,
      ev.isGenerate = false) := by
  rw [← onlyAfter_iff]
  decide

/-- C2 (as amended): in `runWireguardCreate` the private-key warning is printed only after
`wireguard.Create` returned the peer and its private key, the output destination is chosen only
after that warning was printed (so only after the peer was created), and the configuration is
written only after the destination was chosen; when choosing the destination fails the command
returns that error, the peer having been created and the warning printed, and the configuration
is never written. -/
theorem create_then_destination_then_write (w : World) (ctx : Context) (args : List String)
    (c : Config) (out : Out Unit) (hrun : runWireguardCreate w ctx args c = out) :
    (∀ pre ev post, out.trace = pre ++ ev :: post → ev.isResolveWriter = true →
      ∃ x ∈ pre, x.isCreateOk w = true) ∧
    (∀ pre ev post, out.trace = pre ++ ev :: post → ev.isWarning = true →
      ∃ x ∈ pre, x.isCreateOk w = true) ∧
    (∀ pre ev post, out.trace = pre ++ ev :: post → ev.isResolveWriter = true →
      ∃ x ∈ pre, x.isWarning = true) ∧
    (∀ pre ev post, out.trace = pre ++ ev :: post → ev.isGenerate = true →
      ∃ x ∈ pre, x.isResolveWriterOk w = true) ∧
    (∀ e, w.resolveOutputWriter = .error e → (∃ ev ∈ out.trace, ev.isResolveWriter = true) →
      out.result = .err e ∧ (∃ ev ∈ out.trace, ev.isCreateOk w = true) ∧
      Event.print privateKeyWarning ∈ out.trace ∧
      ∀ ev ∈ out.trace, ev.isGenerate = false) := by
  rw [← onlyAfter_iff, ← onlyAfter_iff, ← onlyAfter_iff, ← onlyAfter_iff]
  simp only [runWireguardCreate, bind_assoc_run, bind_ite_run, run_ite, bind_call_run,
    bind_callErr_run, bind_emit_run, bind_fail_run, bind_pure_run, bind_ask_run, run_pure,
    run_emit, run_callErr] at hrun
  repeat' split at hrun
  all_goals subst hrun
  all_goals simp_all [onlyAfter, Event.isCreateOk, Event.isResolveWriter, Event.isResolveWriterOk,
    Event.isGenerate, Event.isWarning]

/-- A run of `runWireguardCreate` whose output destination cannot be opened. -/
theorem create_then_destination_then_write_witness :
    noWriterWorld.resolveOutputWriter = .error (.other "open wg.conf: permission denied") ∧
    (∃ ev ∈ (runWireguardCreate noWriterWorld invocation ["acme"] startConfig).trace,
      ev.isResolveWriter = true) ∧
    (runWireguardCreate noWriterWorld invocation ["acme"] startConfig).result =
      .err (.other "open wg.conf: permission denied") ∧
    Event.print privateKeyWarning ∈
      (runWireguardCreate noWriterWorld invocation ["acme"] startConfig).trace :=
  ⟨rfl, by decide,
    ((create_then_destination_then_write noWriterWorld invocation ["acme"] startConfig _
      rfl).2.2.2.2 _ rfl (by decide)).1,
    ((create_then_destination_then_write noWriterWorld invocation ["acme"] startConfig _
      rfl).2.2.2.2 _ rfl (by decide)).2.2.1⟩

/-- C3 (counterexample): starting from a persisted flag that is false, or unset, `disable`
followed by `enable` (both saves succeeding) leaves the persisted flag true, not the value it had
before. -/
theorem websockets_round_trip_changes_flag :
    calmWorld.saveConfig = none ∧
    (runWireguardWebsockets calmWorld invocation "enable"
        (runWireguardWebsockets calmWorld invocation "disable"
          ⟨some false, some false⟩).config).config.persisted ≠ some false ∧
    (runWireguardWebsockets calmWorld invocation "enable"
        (runWireguardWebsockets calmWorld invocation "disable"
          ⟨none, none⟩).config).config.persisted ≠ none := by
  decide

/-- C3 (as amended): running `disable` and then `enable`, both saves succeeding, leaves the
persisted websockets flag set to true whatever it was before; so it equals the value it had
before the first call exactly when that value was true. -/
theorem websockets_disable_enable_persists_true (w1 w2 : World) (ctx1 ctx2 : Context)
    (c : Config) (_h1 : w1.saveConfig = none) (h2 : w2.saveConfig = none) :
    (runWireguardWebsockets w2 ctx2 "enable"
        (runWireguardWebsockets w1 ctx1 "disable" c).config).config.persisted = some true ∧
    ((runWireguardWebsockets w2 ctx2 "enable"
        (runWireguardWebsockets w1 ctx1 "disable" c).config).config.persisted = c.persisted ↔
      c.persisted = some true) := by
  have key : ∀ (w : World) (ctx : Context) (c0 : Config), w.saveConfig = none →
      (runWireguardWebsockets w ctx "enable" c0).config.persisted = some true := by
    intro w ctx c0 hs
    by_cases hnr : w.defaultClient = some Error.agentNotRunning <;>
      rcases hdc : w.defaultClient with _ | ed <;>
      rcases hk : w.kill with _ | ek <;>
      simp only [hdc, reduceCtorEq, Option.some.injEq] at hnr <;>
      simp [runWireguardWebsockets, tryKillingAgent, bind_assoc_run, bind_ite_run, run_ite,
        bind_emit_run, bind_fail_run, bind_pure_run, bind_ask_run, bind_viperSet_run,
        bind_saveConfig_run, run_pure, run_emit, run_ask, hs, hdc, hk, hnr]
  rw [key w2 ctx2 _ h2]
  exact ⟨rfl, eq_comm⟩

/-- The runs `disable` then `enable` from a persisted flag that is false. -/
theorem websockets_disable_enable_persists_true_witness :
    calmWorld.saveConfig = none ∧
    (runWireguardWebsockets calmWorld invocation "enable"
        (runWireguardWebsockets calmWorld invocation "disable"
          ⟨some false, some false⟩).config).config.persisted = some true :=
  ⟨rfl, (websockets_disable_enable_persists_true calmWorld calmWorld invocation invocation
    ⟨some false, some false⟩ rfl rfl).1⟩

/-- C4: for `enable` and `disable`, the agent is contacted only after `SaveConfig` succeeded; a
failed save returns the wrapped error with no agent call; after a successful save the command
returns success, prints the restart instruction exactly when getting the agent client failed with
an error other than `ErrAgentNotRunning` or `Kill` failed, calls `Kill` exactly when the client
was obtained, and with the agent not running neither calls `Kill` nor prints the instruction. -/
theorem websockets_kills_after_save (w : World) (ctx : Context) (firstArg : String) (c : Config)
    (out : Out Unit) (harg : firstArg = "enable" ∨ firstArg = "disable")
    (hrun : runWireguardWebsockets w ctx firstArg c = out) :
    (∀ pre ev post, out.trace = pre ++ ev :: post → ev.isAgentCall = true →
      ∃ x ∈ pre, x.isSaveOk w = true) ∧
    (∀ e, w.saveConfig = some e →
      out.result = .err (.wrap "error saving config file" e) ∧
      ∀ ev ∈ out.trace, ev.isAgentCall = false) ∧
    (w.saveConfig = none →
      out.result = .ok () ∧
      (Event.print "Run `flyctl agent restart` to make changes take effect.\n" ∈ out.trace ↔
        ((∃ e, w.defaultClient = some e ∧ e ≠ .agentNotRunning) ∨
          (w.defaultClient = none ∧ ∃ e, w.kill = some e))) ∧
      ((∃ ev ∈ out.trace, ev.isKill = true) ↔ w.defaultClient = none) ∧
      (w.defaultClient = some .agentNotRunning →
        (∀ ev ∈ out.trace, ev.isKill = false) ∧
        Event.print "Run `flyctl agent restart` to make changes take effect.\n" ∉ out.trace)) := by
  rw [← onlyAfter_iff]
  have hE : ("enable" = "disable") = False := by decide
  have hD : ("disable" = "enable") = False := by decide
  simp only [runWireguardWebsockets, tryKillingAgent, bind_assoc_run, bind_ite_run, run_ite,
    bind_emit_run, bind_fail_run, bind_pure_run, bind_ask_run, bind_viperSet_run,
    bind_saveConfig_run, run_pure, run_emit, run_ask] at hrun
  by_cases hnr : w.defaultClient = some Error.agentNotRunning <;>
    rcases hs : w.saveConfig with _ | es <;> rcases hd : w.defaultClient with _ | ed <;>
    rcases hk : w.kill with _ | ek <;> rcases harg with rfl | rfl <;>
    simp only [hd, reduceCtorEq, Option.some.injEq] at hnr <;>
    simp only [bind_emit_run, bind_pure_run, run_pure, run_emit, hs, hd, hk, hnr, hE, hD,
      if_true, if_false, ne_eq, not_true_eq_false, not_false_eq_true, reduceCtorEq,
      Option.some.injEq] at hrun <;>
    subst hrun <;>
    simp [onlyAfter, Event.isAgentCall, Event.isSaveOk, Event.isKill, hs, hd, hk, hnr]

/-- A run of `websockets enable` in which `Kill` fails. -/
theorem websockets_kills_after_save_witness :
    ("enable" = "enable" ∨ "enable" = "disable") ∧ killFailsWorld.saveConfig = none ∧
    (runWireguardWebsockets killFailsWorld invocation "enable" startConfig).result = .ok () ∧
    Event.print "Run `flyctl agent restart` to make changes take effect.\n" ∈
      (runWireguardWebsockets killFailsWorld invocation "enable" startConfig).trace :=
  ⟨Or.inl rfl, rfl,
    ((websockets_kills_after_save killFailsWorld invocation "enable" startConfig _
      (Or.inl rfl) rfl).2.2 rfl).1,
    (((websockets_kills_after_save killFailsWorld invocation "enable" startConfig _
      (Or.inl rfl) rfl).2.2 rfl).2.1).2 (Or.inr ⟨rfl, _, rfl⟩)⟩

theorem status_calls_read (w : World) (ctx : Context) (args : List String) :
    Prog.Calls Event.isRead (runWireguardStatus w ctx args) := by
  simp only [runWireguardStatus, selectWireGuardPeer]
  repeat' first
    | with_reducible refine calls_bind ?_ (fun _ => ?_)
    | with_reducible refine calls_ite ?_ ?_
    | with_reducible refine calls_emit ?_
    | with_reducible refine calls_call _ ?_
    | with_reducible exact calls_pure _
    | with_reducible exact calls_fail _
    | with_reducible exact calls_index _ _
    | rfl

theorem status_frame (w : World) (ctx : Context) (args : List String) :
    Prog.Frame (runWireguardStatus w ctx args) := by
  simp only [runWireguardStatus, selectWireGuardPeer]
  repeat' first
    | with_reducible refine frame_bind ?_ (fun _ => ?_)
    | with_reducible refine frame_ite ?_ ?_
    | with_reducible exact frame_emit _
    | with_reducible exact frame_call _ _
    | with_reducible exact frame_pure _
    | with_reducible exact frame_fail _
    | with_reducible exact frame_index _ _

/-- C5: `runWireguardStatus` is read-only: on every path it leaves the configuration as it was,
makes no createPeer, removePeer, Prune, establish, reestablish or kill call, and every call it
makes is a read (organization lookup, peer list and selection, peer status) or a print. -/
theorem status_read_only (w : World) (ctx : Context) (args : List String) (c : Config) :
    (runWireguardStatus w ctx args c).config = c ∧
    (∀ ev ∈ (runWireguardStatus w ctx args c).trace, ev.isMutation = false) ∧
    (∀ ev ∈ (runWireguardStatus w ctx args c).trace, ev.isRead = true) :=
  ⟨status_frame w ctx args c,
    fun ev hev => isRead_not_isMutation ev (status_calls_read w ctx args c ev hev),
    status_calls_read w ctx args c⟩

/-- A run of `runWireguardStatus` for a live peer. -/
theorem status_read_only_witness :
    (runWireguardStatus calmWorld invocation ["acme", "laptop"] startConfig).config =
      startConfig :=
  (status_read_only calmWorld invocation ["acme", "laptop"] startConfig).1

/-- C6: when `Remove` or `Status` runs without an explicit peer name (fewer than two arguments)
and the interactive selection fails, the command returns the selection error (no panic) and takes
no action: `Remove` makes no `RemoveWireGuardPeer` and no Prune call, `Status` makes no
`GetWireGuardPeerStatus` call, neither makes any state-changing call; and for an organization
with zero peers the selection does fail. -/
theorem selection_failure_takes_no_action (w : World) (ctx : Context) (args : List String)
    (c : Config) (org : Organization) (horg : w.orgByArg = .ok org) (hargs : args.length < 2) :
    (∀ e, (selectWireGuardPeer w ctx org.slug c).result = .err e →
      ((runWireguardRemove w ctx args c).result = .err e ∧
        ∀ ev ∈ (runWireguardRemove w ctx args c).trace,
          ev.isRemove = false ∧ ev.isPrune = false ∧ ev.isMutation = false) ∧
      ((runWireguardStatus w ctx args c).result = .err e ∧
        ∀ ev ∈ (runWireguardStatus w ctx args c).trace,
          ev.isPeerStatus = false ∧ ev.isMutation = false)) ∧
    (w.getWireGuardPeers org.slug = .ok [] →
      ∃ e, (selectWireGuardPeer w ctx org.slug c).result = .err e) := by
  have hlen : ¬ args.length ≥ 2 := by omega
  have hquiet : ∀ ev ∈ (selectWireGuardPeer w ctx org.slug c).trace,
      ev.isRemove = false ∧ ev.isPrune = false ∧ ev.isPeerStatus = false ∧
        ev.isMutation = false := by
    intro ev hev
    have h := select_calls w ctx org.slug c ev hev
    cases ev <;> first | exact ⟨rfl, rfl, rfl, rfl⟩ | simp [Event.isSelection] at h
  refine ⟨fun e hsel => ⟨?_, ?_⟩, ?_⟩
  · simp only [runWireguardRemove, bind_call_run, horg, hlen, if_false, run_bind_err _ hsel,
      Out.after_result, Out.after_trace, List.singleton_append, List.mem_cons, true_and]
    rintro ev (rfl | hev)
    · exact ⟨rfl, rfl, rfl⟩
    · exact ⟨(hquiet ev hev).1, (hquiet ev hev).2.1, (hquiet ev hev).2.2.2⟩
  · simp only [runWireguardStatus, bind_call_run, horg, hlen, if_false, run_bind_err _ hsel,
      Out.after_result, Out.after_trace, List.singleton_append, List.mem_cons, true_and]
    rintro ev (rfl | hev)
    · exact ⟨rfl, rfl⟩
    · exact ⟨(hquiet ev hev).2.2.1, (hquiet ev hev).2.2.2⟩
  · intro hzero
    refine ⟨.selectionAborted, ?_⟩
    simp only [selectWireGuardPeer, bind_call_run, hzero, List.isEmpty_nil, if_true, run_fail,
      Out.after_result]

/-- Runs of `Remove` and `Status` without a peer name for an organization with no peers. -/
theorem selection_failure_takes_no_action_witness :
    noPeersWorld.orgByArg = .ok ⟨"acme"⟩ ∧ ["acme"].length < 2 ∧
    (selectWireGuardPeer noPeersWorld invocation "acme" startConfig).result =
      .err .selectionAborted ∧
    (runWireguardRemove noPeersWorld invocation ["acme"] startConfig).result =
      .err .selectionAborted ∧
    (runWireguardStatus noPeersWorld invocation ["acme"] startConfig).result =
      .err .selectionAborted :=
  ⟨rfl, by decide, by decide,
    (((selection_failure_takes_no_action noPeersWorld invocation ["acme"] startConfig ⟨"acme"⟩
      rfl (by decide)).1 .selectionAborted (by decide)).1).1,
    (((selection_failure_takes_no_action noPeersWorld invocation ["acme"] startConfig ⟨"acme"⟩
      rfl (by decide)).1 .selectionAborted (by decide)).2).1⟩

/-- C7 (counterexample): `runWireguardReset` gives `Reestablish` the background context and
`runWireguardCreate` gives the peer-creation call no context at all, so for a cancellable
invocation context not every PeerStore or AgentConnection call is cancelled with it. -/
theorem reset_and_create_escape_cancellation :
    ¬ (∀ ev ∈ (runWireguardReset calmWorld invocation startConfig).trace,
        ev.isStoreOrAgentCall = true → ev.cancelledWith invocation = true) ∧
    ¬ (∀ ev ∈ (runWireguardCreate calmWorld invocation ["acme"] startConfig).trace,
        ev.isStoreOrAgentCall = true → ev.cancelledWith invocation = true) ∧
    Event.establish (.withValue .background "config") ∈
      (runWireguardReset calmWorld invocation startConfig).trace ∧
    Event.reestablish .background "acme" ∈
      (runWireguardReset calmWorld invocation startConfig).trace ∧
    Event.create ⟨"acme"⟩ "" "" ∈
      (runWireguardCreate calmWorld invocation ["acme"] startConfig).trace := by
  decide

theorem list_calls_given (w : World) (ctx : Context) :
    Prog.Calls (Event.givenContext ctx) (runWireguardList w ctx) := by
  simp only [runWireguardList]
  repeat' first
    | with_reducible refine calls_bind ?_ (fun _ => ?_)
    | with_reducible refine calls_ite ?_ ?_
    | with_reducible refine calls_emit ?_
    | with_reducible refine calls_call _ ?_
    | simp [Event.givenContext, Event.isStoreOrAgentCall, Event.context]

theorem remove_calls_given (w : World) (ctx : Context) (args : List String) :
    Prog.Calls (Event.givenContext ctx) (runWireguardRemove w ctx args) := by
  simp only [runWireguardRemove, selectWireGuardPeer]
  repeat' first
    | with_reducible refine calls_bind ?_ (fun _ => ?_)
    | with_reducible refine calls_ite ?_ ?_
    | with_reducible refine calls_emit ?_
    | with_reducible refine calls_call _ ?_
    | with_reducible refine calls_callErr _ ?_
    | with_reducible exact calls_fail _
    | with_reducible exact calls_index _ _
    | simp [Event.givenContext, Event.isStoreOrAgentCall, Event.context]

theorem status_calls_given (w : World) (ctx : Context) (args : List String) :
    Prog.Calls (Event.givenContext ctx) (runWireguardStatus w ctx args) := by
  simp only [runWireguardStatus, selectWireGuardPeer]
  repeat' first
    | with_reducible refine calls_bind ?_ (fun _ => ?_)
    | with_reducible refine calls_ite ?_ ?_
    | with_reducible refine calls_emit ?_
    | with_reducible refine calls_call _ ?_
    | with_reducible exact calls_pure _
    | with_reducible exact calls_fail _
    | with_reducible exact calls_index _ _
    | simp [Event.givenContext, Event.isStoreOrAgentCall, Event.context]

theorem websockets_calls_given (w : World) (ctx : Context) (firstArg : String) :
    Prog.Calls (Event.givenContext ctx) (runWireguardWebsockets w ctx firstArg) := by
  simp only [runWireguardWebsockets, tryKillingAgent]
  repeat' first
    | with_reducible refine calls_bind ?_ (fun _ => ?_)
    | with_reducible refine calls_ite ?_ ?_
    | with_reducible refine calls_emit ?_
    | with_reducible refine calls_ask _ ?_
    | with_reducible refine calls_viperSet _ ?_
    | with_reducible refine calls_saveConfig _ ?_
    | with_reducible exact calls_pure _
    | with_reducible exact calls_fail _
    | split
    | simp [Event.givenContext, Event.isStoreOrAgentCall, Event.context]

theorem reset_calls_pinned (w : World) (ctx : Context) :
    Prog.Calls Event.resetCall (runWireguardReset w ctx) := by
  simp only [runWireguardReset]
  repeat' first
    | with_reducible refine calls_bind ?_ (fun _ => ?_)
    | with_reducible refine calls_emit ?_
    | with_reducible refine calls_call _ ?_
    | with_reducible refine calls_callErr _ ?_
    | rfl

theorem resetCall_store_or_agent (ev : Event) (hcall : ev.isStoreOrAgentCall = true)
    (h : ev.resetCall = true) :
    ev = .establish (.withValue .background "config") ∨
      ∃ slug, ev = .reestablish .background slug := by
  cases ev <;> simp_all [Event.resetCall, Event.isStoreOrAgentCall]

theorem givenNoContext_store_or_agent (ev : Event) (hcall : ev.isStoreOrAgentCall = true)
    (h : ev.givenNoContext = true) : ev.isCreate = true ∧ ev.context = none := by
  cases ev <;> simp_all [Event.givenNoContext, Event.isStoreOrAgentCall, Event.context,
    Event.isCreate]

theorem create_calls_no_context (w : World) (ctx : Context) (args : List String) :
    Prog.Calls Event.givenNoContext (runWireguardCreate w ctx args) := by
  simp only [runWireguardCreate]
  repeat' first
    | with_reducible refine calls_bind ?_ (fun _ => ?_)
    | with_reducible refine calls_ite ?_ ?_
    | with_reducible refine calls_emit ?_
    | with_reducible refine calls_call _ ?_
    | with_reducible exact calls_pure _
    | rfl

/-- C7 (as amended): every PeerStore and AgentConnection call made by `runWireguardList`,
`runWireguardRemove`, `runWireguardStatus` and `runWireguardWebsockets` is given the context of
the invocation; in `runWireguardReset` the only such calls are `agent.Establish`, given
`config.NewContext(context.Background(), ...)`, and `Reestablish`, given `context.Background()`,
and both are made once the organization is resolved (`Reestablish` once `Establish` succeeded);
in `runWireguardCreate` the only such call is the peer creation, which is given no context and
is made once the organization is resolved; cancelling a cancellable invocation context cancels
none of these three calls. -/
theorem calls_contexts (w : World) (ctx : Context) (args : List String) (firstArg : String)
    (c : Config) :
    (∀ ev ∈ (runWireguardList w ctx c).trace,
      ev.isStoreOrAgentCall = true → ev.context = some ctx) ∧
    (∀ ev ∈ (runWireguardRemove w ctx args c).trace,
      ev.isStoreOrAgentCall = true → ev.context = some ctx) ∧
    (∀ ev ∈ (runWireguardStatus w ctx args c).trace,
      ev.isStoreOrAgentCall = true → ev.context = some ctx) ∧
    (∀ ev ∈ (runWireguardWebsockets w ctx firstArg c).trace,
      ev.isStoreOrAgentCall = true → ev.context = some ctx) ∧
    (∀ ev ∈ (runWireguardReset w ctx c).trace,
      ev.isStoreOrAgentCall = true →
        (ev = .establish (.withValue .background "config") ∨
          ∃ slug, ev = .reestablish .background slug) ∧
        ∀ parent id, ev.cancelledWith (.withCancel parent id) = false) ∧
    (∀ ev ∈ (runWireguardReset w ctx c).trace,
      (∀ cx, ev = .establish cx → cx = .withValue .background "config") ∧
      (∀ cx slug, ev = .reestablish cx slug → cx = .background)) ∧
    (∀ org, w.orgByArg = .ok org →
      Event.establish (.withValue .background "config") ∈ (runWireguardReset w ctx c).trace ∧
      (w.establish = none →
        Event.reestablish .background org.slug ∈ (runWireguardReset w ctx c).trace)) ∧
    (∀ ev ∈ (runWireguardCreate w ctx args c).trace,
      ev.isStoreOrAgentCall = true →
        ev.isCreate = true ∧ ev.context = none ∧ ∀ root, ev.cancelledWith root = false) ∧
    (∀ org, w.orgByArg = .ok org →
      ∃ ev ∈ (runWireguardCreate w ctx args c).trace, ev.isCreate = true) := by
  refine ⟨?_, ?_, ?_, ?_, ?_, ?_, ?_, ?_, ?_⟩
  · intro ev hev hcall
    have h := list_calls_given w ctx c ev hev
    simpa [Event.givenContext, hcall] using h
  · intro ev hev hcall
    have h := remove_calls_given w ctx args c ev hev
    simpa [Event.givenContext, hcall] using h
  · intro ev hev hcall
    have h := status_calls_given w ctx args c ev hev
    simpa [Event.givenContext, hcall] using h
  · intro ev hev hcall
    have h := websockets_calls_given w ctx firstArg c ev hev
    simpa [Event.givenContext, hcall] using h
  · intro ev hev hcall
    have h := resetCall_store_or_agent ev hcall (reset_calls_pinned w ctx c ev hev)
    refine ⟨h, fun parent id => ?_⟩
    rcases h with rfl | ⟨slug, rfl⟩ <;>
      simp [Event.cancelledWith, Event.context, Context.derivesFrom]
  · intro ev hev
    have h := reset_calls_pinned w ctx c ev hev
    refine ⟨?_, ?_⟩
    · rintro cx rfl
      simpa [Event.resetCall] using h
    · rintro cx slug rfl
      simpa [Event.resetCall] using h
  · intro org horg
    rcases hest : w.establish with _ | e <;> rcases hre : w.reestablish org.slug with e2 | nm <;>
      simp [runWireguardReset, bind_call_run, bind_callErr_run, bind_emit_run, run_emit,
        run_call, horg, hest, hre]
  · intro ev hev hcall
    have h := givenNoContext_store_or_agent ev hcall (create_calls_no_context w ctx args c ev hev)
    exact ⟨h.1, h.2, fun root => by simp [Event.cancelledWith, h.2]⟩
  · intro org horg
    generalize hout : runWireguardCreate w ctx args c = out
    simp only [runWireguardCreate, bind_assoc_run, bind_ite_run, run_ite, bind_call_run,
      bind_callErr_run, bind_emit_run, bind_fail_run, bind_pure_run, bind_ask_run, run_pure,
      run_emit, run_callErr, horg] at hout
    repeat' split at hout
    all_goals subst hout
    all_goals simp [Event.isCreate]

/-- A run of `runWireguardReset` under a cancellable invocation context. -/
theorem calls_contexts_witness :
    Event.reestablish .background "acme" ∈
      (runWireguardReset calmWorld invocation startConfig).trace ∧
    (Event.reestablish .background "acme").cancelledWith invocation = false :=
  ⟨by decide,
    ((calls_contexts calmWorld invocation [] "" startConfig).2.2.2.2.1
      (Event.reestablish .background "acme") (by decide) rfl).2 .background 1⟩

set_option maxHeartbeats 2000000 in
/-- C8: in `runSave`, once the remote config and the file name are resolved: the confirmation
prompt is shown exactly when the file exists and `--yes` is not set; if then the user declines,
the command returns nil and `WriteToDisk` is never called; if the prompt itself fails, its error
is returned without a write; in every other case `WriteToDisk` is called exactly once, with the
resolved file name, and its result is returned. -/
theorem save_asks_before_overwrite (w : SaveWorld) (ctx ctx2 : Context) (c : Config)
    (file : String) (out : Out Unit)
    (h1 : w.getAppCompact = .ok ()) (h2 : w.buildContext = .ok ctx2)
    (h3 : w.fromRemoteApp = .ok ())
    (h4 : w.resolveConfigFileFromPath
      (if w.configSpecified then w.configFlag else w.workingDirectory) = .ok file)
    (hrun : runSave w ctx c = out) :
    ((∃ ev ∈ out.trace, ev.isConfirm = true) ↔
      ((w.configFileExistsAtPath file).1 = true ∧ w.autoConfirm = false)) ∧
    ((w.configFileExistsAtPath file).1 = true → w.autoConfirm = false →
      w.confirm file = .ok false →
        out.result = .ok () ∧ ∀ ev ∈ out.trace, ev.isWriteToDisk = false) ∧
    (∀ e, (w.configFileExistsAtPath file).1 = true → w.autoConfirm = false →
      w.confirm file = .error e →
        out.result = .err e ∧ ∀ ev ∈ out.trace, ev.isWriteToDisk = false) ∧
    (((w.configFileExistsAtPath file).1 = false ∨ w.autoConfirm = true ∨
        w.confirm file = .ok true) →
      out.trace.filter Event.isWriteToDisk = [Event.writeToDisk ctx2 file] ∧
      out.result = Result.ofError (w.writeToDisk file)) := by
  simp only [runSave, bind_assoc_run, bind_ite_run, run_ite, bind_call_run, bind_callErr_run,
    bind_emit_run, bind_fail_run, bind_pure_run, bind_ask_run, run_pure, run_callErr, h1, h2,
    h3] at hrun
  rcases hcs : w.configSpecified <;>
    simp only [hcs, if_true, if_false, Bool.false_eq_true] at h4 hrun <;>
    simp only [h4] at hrun <;>
    rcases hex : (w.configFileExistsAtPath file).1 <;> rcases hy : w.autoConfirm <;>
    rcases hc : w.confirm file with ec | (_ | _) <;>
    rcases hw : w.writeToDisk file with _ | ew <;>
    simp only [hex, hy, hc, hw, if_true, if_false, Bool.false_eq_true, Bool.not_true,
      Bool.not_false, and_true, and_false, true_and, false_and, not_true_eq_false,
      not_false_eq_true] at hrun <;>
    subst hrun <;>
    simp [Event.isConfirm, Event.isWriteToDisk, Result.ofError]

/-- A run of `runSave` in which the user declines to overwrite `fly.toml`. -/
theorem save_asks_before_overwrite_witness :
    (declineWorld.configFileExistsAtPath "/work/fly.toml").1 = true ∧
    declineWorld.autoConfirm = false ∧ declineWorld.confirm "/work/fly.toml" = .ok false ∧
    (runSave declineWorld invocation startConfig).result = .ok () :=
  ⟨rfl, rfl, rfl,
    ((save_asks_before_overwrite declineWorld invocation (.withValue invocation "app")
      startConfig "/work/fly.toml" _ rfl rfl rfl rfl rfl).2.1 rfl rfl rfl).1⟩

/-- C9 (the code at the failing input): for a live peer whose last handshake was 5s ago and
which was installed 745h ago, `runWireguardStatus` prints the handshake time with "745h ago" and
the installation time with "5s ago". -/
theorem status_swaps_elapsed_times :
    (runWireguardStatus calmWorld invocation ["acme", "laptop"] startConfig).trace =
      [Event.orgByArg invocation,
        Event.getWireGuardPeerStatus invocation "acme" "laptop",
        Event.print "Alive: true\n",
        Event.print "Last Source Address: 203.0.113.7:51820\n",
        Event.print "Last Handshake At: 2023-05-02 10:00:00 (745h ago)\n",
        Event.print "Installed On Gateway At: 2023-04-01 09:00:00 (5s ago)\n",
        Event.print "Traffic: rx:1024 tx:2048\n"] := by
  decide

/-- C10: for every argument other than `enable` and `disable`, the websockets value in memory is
left as it was, no `viper.Set` is made and the "bad arg" line is printed first, yet the command
goes on: it calls `SaveConfig`, and when the save succeeds it asks for the agent client, calls
`Kill` when the client was obtained, and returns success. -/
theorem websockets_bad_arg_continues (w : World) (ctx : Context) (firstArg : String)
    (c : Config) (out : Out Unit) (he : firstArg ≠ "enable") (hd : firstArg ≠ "disable")
    (hrun : runWireguardWebsockets w ctx firstArg c = out) :
    out.config.websockets = c.websockets ∧
    (∀ ev ∈ out.trace, ev.isViperSet = false) ∧
    out.trace.head? =
      some (Event.print "bad arg: flyctl wireguard websockets (enable|disable)\n") ∧
    Event.saveConfig ∈ out.trace ∧
    (w.saveConfig = none →
      out.config.persisted = c.websockets ∧
      Event.defaultClient ctx ∈ out.trace ∧
      (w.defaultClient = none → Event.kill ctx ∈ out.trace) ∧
      out.result = .ok ()) := by
  simp only [runWireguardWebsockets, tryKillingAgent, bind_assoc_run, bind_ite_run, run_ite,
    bind_emit_run, bind_fail_run, bind_pure_run, bind_ask_run, bind_viperSet_run,
    bind_saveConfig_run, run_pure, run_emit, run_ask, he, hd, if_false] at hrun
  by_cases hnr : w.defaultClient = some Error.agentNotRunning <;>
    rcases hs : w.saveConfig with _ | es <;> rcases hdc : w.defaultClient with _ | ed <;>
    rcases hk : w.kill with _ | ek <;>
    simp only [hdc, reduceCtorEq, Option.some.injEq] at hnr <;>
    simp only [bind_emit_run, bind_pure_run, run_pure, run_emit, hs, hdc, hk, hnr, if_true,
      if_false, ne_eq, not_true_eq_false, not_false_eq_true, reduceCtorEq, Option.some.injEq]
      at hrun <;>
    subst hrun <;>
    simp [Event.isViperSet]

/-- A run of `runWireguardWebsockets` without an argument. -/
theorem websockets_bad_arg_continues_witness :
    "" ≠ "enable" ∧ "" ≠ "disable" ∧ calmWorld.saveConfig = none ∧
    Event.kill invocation ∈ (runWireguardWebsockets calmWorld invocation "" startConfig).trace ∧
    (runWireguardWebsockets calmWorld invocation "" startConfig).result = .ok () :=
  ⟨by decide, by decide, rfl,
    ((websockets_bad_arg_continues calmWorld invocation "" startConfig _ (by decide)
      (by decide) rfl).2.2.2.2 rfl).2.2.1 rfl,
    ((websockets_bad_arg_continues calmWorld invocation "" startConfig _ (by decide)
      (by decide) rfl).2.2.2.2 rfl).2.2.2⟩

end Flyctl
